import Mathlib

/-!
# Verification of the closing-balance / closing-stock costing engine

Shallow embedding of `src/stock/stockreport/services.py` (class
`LiveSQLService`): the weighted-average stock replay
(`get_closing_stock_live`), the account balance report
(`get_closing_balance_live`) and the itemized stock ledger
(`get_stock_ledger_live`).

Modelling conventions:
* Monetary values and quantities are exact rationals (`ℚ`); the Python code
  uses SQL floats, which the specification treats as exact arithmetic.
* Dates are integers (`Int`); the code truncates datetimes to dates before
  every comparison, so only the ordering matters.
* `round(x, 2)` is modelled by `round2` (round half away handled by
  Mathlib's `round`, half-to-even tie-breaking of Python floats is
  abstracted; no property below depends on tie behaviour).
* Database access is modelled by passing the fetched rows as inputs: each
  item carries its folio opening pair and its transaction list, already in
  the `ORDER BY Date, RecType` order the queries request.
* Presentation-only string fields of ledger rows (`vchno`, `description`)
  are omitted; all numeric fields are kept.
-/

/-- One row of `Tran2` as fetched for an item: `Date`, `Value1`
(signed quantity), `Value3` (signed amount), `VchNo`. -/
structure Txn where
  date : Int
  value1 : ℚ
  value3 : ℚ
  vchno : Nat
deriving Repr, DecidableEq

/-- Running snapshot during a replay: quantity, value, average rate. -/
structure St where
  qty : ℚ
  val : ℚ
  rate : ℚ
deriving Repr, DecidableEq

/-- The guarded average-rate expression `(val / qty) if qty else 0`
(services.py lines 102, 112, 117, 126, 138, 145, 322, 332, 337, 357, 387). -/
def avgRate (val qty : ℚ) : ℚ :=
  if qty = 0 then 0 else val / qty

/-- `round(x, 2)`: round to two decimal places. -/
def round2 (x : ℚ) : ℚ :=
  ((round (100 * x) : ℤ) : ℚ) / 100

/-- One step of the opening-balance pre-pass (services.py lines 109-117,
identical text at lines 329-337): purchase adds quantity and amount and
recomputes the rate; sale consumes value at the current rate, then
recomputes the rate; a zero-quantity row matches neither branch. -/
def stepQVR (s : St) (t : Txn) : St :=
  if 0 < t.value1 then
    let q := s.qty + t.value1
    let v := s.val + t.value3
    ⟨q, v, avgRate v q⟩
  else if t.value1 < 0 then
    let out := |t.value1|
    let v := s.val - out * s.rate
    let q := s.qty - out
    ⟨q, v, avgRate v q⟩
  else s

/-- The pre-start pass (services.py lines 99-119 and 319-340): replay
transactions until the first one dated `≥ start_date`, then stop (`break`). -/
def prePass (d : Int) : St → List Txn → St
  | s, [] => s
  | s, t :: ts => if d ≤ t.date then s else prePass d (stepQVR s t) ts

/-- Effective opening for a window (services.py lines 98-119 / 318-340):
the pre-pass runs only when a start date is given. -/
def effectiveOpening (startd : Option Int) (oq ov : ℚ) (txns : List Txn) : ℚ × ℚ :=
  match startd with
  | some d =>
    let s := prePass d ⟨oq, ov, avgRate ov oq⟩ txns
    (s.qty, s.val)
  | none => (oq, ov)

/-- In-window test (services.py lines 131-134 / 346-349): skip transactions
before `start_date` or after `end_date`, each bound only when supplied. -/
def inWindow (startd endd : Option Int) (t : Txn) : Bool :=
  (match startd with | some d => decide (d ≤ t.date) | none => true) &&
  (match endd with | some d => decide (t.date ≤ d) | none => true)

/-- Report-pass state: running snapshot plus period accumulators. -/
structure RepSt where
  st : St
  pqty : ℚ
  pval : ℚ
deriving Repr, DecidableEq

/-- One in-window step of the stock-report replay (services.py lines
135-147). Note the sale branch: the running value is decremented using the
pre-update rate (line 143), the rate is then recomputed (line 145), and the
period value is decremented using that recomputed rate (line 147). -/
def reportStep (s : RepSt) (t : Txn) : RepSt :=
  if 0 < t.value1 then
    let q := s.st.qty + t.value1
    let v := s.st.val + t.value3
    ⟨⟨q, v, avgRate v q⟩, s.pqty + t.value1, s.pval + t.value3⟩
  else if t.value1 < 0 then
    let out := |t.value1|
    let v := s.st.val - out * s.st.rate
    let q := s.st.qty - out
    let r := avgRate v q
    ⟨⟨q, v, r⟩, s.pqty + t.value1, s.pval - out * r⟩
  else s

/-- The in-window loop of the stock report (services.py lines 128-147):
out-of-window transactions are skipped (`continue`). -/
def reportPass (startd endd : Option Int) : RepSt → List Txn → RepSt
  | s, [] => s
  | s, t :: ts =>
    if inWindow startd endd t then reportPass startd endd (reportStep s t) ts
    else reportPass startd endd s ts

/-- The per-item computation of `get_closing_stock_live` before row shaping
(services.py lines 98-150): effective opening, then the windowed replay. -/
structure StockCalc where
  openingQty : ℚ
  openingVal : ℚ
  periodQty : ℚ
  periodVal : ℚ
  closingQty : ℚ
  closingVal : ℚ
deriving Repr, DecidableEq

def stockItemCalc (startd endd : Option Int) (oq ov : ℚ) (txns : List Txn) : StockCalc :=
  let o := effectiveOpening startd oq ov txns
  let s0 : RepSt := ⟨⟨o.1, o.2, avgRate o.2 o.1⟩, 0, 0⟩
  let s := reportPass startd endd s0 txns
  ⟨o.1, o.2, s.pqty, s.pval, s.st.qty, s.st.val⟩

/-- Per-item input to the stock report: master identity, folio opening pair
(`D1`, `D3`, null coalesced to 0 by the caller), and the fetched
transactions in query order. -/
structure StockInput where
  code : Nat
  name : String
  openingQty : ℚ
  openingVal : ℚ
  txns : List Txn
deriving Repr, DecidableEq

/-- Output row of the stock report (services.py lines 154-162). -/
structure StockRow where
  code : Nat
  name : String
  opening_quantity : ℚ
  opening_value : ℚ
  transaction_quantity : ℚ
  transaction_value : ℚ
  closing_quantity : ℚ
  closing_value : ℚ
deriving Repr, DecidableEq

def stockRowOf (it : StockInput) (c : StockCalc) : StockRow :=
  ⟨it.code, it.name, round2 c.openingQty, round2 c.openingVal,
    round2 c.periodQty, round2 c.periodVal, round2 c.closingQty, round2 c.closingVal⟩

/-- `get_closing_stock_live` (services.py lines 40-164): per catalog item,
run the replay and append a row unless `hide_zero_balance` is set and the
(unrounded) closing quantity is 0 (line 153). -/
def get_closing_stock_live (startd endd : Option Int) (hide : Bool) :
    List StockInput → List StockRow
  | [] => []
  | it :: rest =>
    let c := stockItemCalc startd endd it.openingQty it.openingVal it.txns
    let tail := get_closing_stock_live startd endd hide rest
    if ¬hide ∨ c.closingQty ≠ 0 then stockRowOf it c :: tail else tail

/-- One row of `Master1` as fetched by the catalog queries. -/
structure Master where
  code : Nat
  mtype : Nat
  name : String
deriving Repr, DecidableEq

/-- Output row of the stock ledger (services.py lines 361-372 and 396-407);
the presentation-only `vchno` and `description` strings are omitted. -/
structure LedgerRow where
  sno : Nat
  date : Int
  opamount : ℚ
  opqty : ℚ
  qtyin : ℚ
  qtyout : ℚ
  closingqty : ℚ
  closingamt : ℚ
deriving Repr, DecidableEq

/-- One state update of the ledger loop (services.py lines 381-394).
Unlike the report pass, the sale branch does NOT recompute the average rate
after the sale: only the purchase branch touches `avg_rate` (line 387). The
`else` branch also covers a zero quantity (then `out = 0` and the state is
unchanged). -/
def ledgerStep (s : St) (t : Txn) : St :=
  if 0 < t.value1 then
    let q := s.qty + t.value1
    let v := s.val + t.value3
    ⟨q, v, avgRate v q⟩
  else
    let out := |t.value1|
    ⟨s.qty - out, s.val - out * s.rate, s.rate⟩

/-- The running state of the ledger loop after a list of transactions. -/
def ledgerState (s : St) (txns : List Txn) : St :=
  txns.foldl ledgerStep s

/-- The row-emitting ledger loop (services.py lines 375-407), numbering
rows from `idx`. -/
def ledgerLoop : St → Nat → List Txn → List LedgerRow
  | _, _, [] => []
  | s, idx, t :: ts =>
    let s' := ledgerStep s t
    let qin : ℚ := if 0 < t.value1 then t.value1 else 0
    let qout : ℚ := if 0 < t.value1 then 0 else |t.value1|
    ⟨idx, t.date, round2 s.val, round2 s.qty, round2 qin, round2 qout,
      round2 s'.qty, round2 s'.val⟩ :: ledgerLoop s' (idx + 1) ts

/-- Date of the synthetic opening row (services.py line 363): `start_date`
if given, else the first in-window transaction's date, else "today". -/
def openingRowDate (startd : Option Int) (txns : List Txn) (today : Int) : Int :=
  match startd with
  | some d => d
  | none =>
    match txns.head? with
    | some t => t.date
    | none => today

/-- `get_stock_ledger_live` (services.py lines 269-409). Inputs stand for
the fetched rows: the `Master1` catalog, the folio opening pair (absent row
modelled as `none`), and all `Tran2` rows for the item in query order.
`today` is the injected current date used only for the opening-row default. -/
def get_stock_ledger_live (catalog : List Master) (master_code : Nat)
    (startd endd : Option Int) (today : Int)
    (folio : Option (ℚ × ℚ)) (all_txns : List Txn) : List LedgerRow :=
  match catalog.find? (fun m => m.code == master_code && m.mtype == 6) with
  | none => []
  | some _ =>
    let f := folio.getD (0, 0)
    let o := effectiveOpening startd f.1 f.2 all_txns
    let txns := all_txns.filter (inWindow startd endd)
    let openRows : List LedgerRow :=
      if 0 < o.1 ∨ 0 < o.2 then
        [⟨0, openingRowDate startd txns today, 0, 0, o.1, 0, o.1, o.2⟩]
      else []
    openRows ++ ledgerLoop ⟨o.1, o.2, avgRate o.2 o.1⟩ 1 txns

/-- One row of `Tran2` as used by the balance report: only `Date` and
`Value1` (signed amount) matter there. -/
structure BalTxn where
  date : Int
  value1 : ℚ
deriving Repr, DecidableEq

/-- Per-account input to the balance report: master identity, folio `D1`
(null coalesced to 0), and the account's transactions. -/
structure BalInput where
  code : Nat
  name : String
  baseOpening : ℚ
  txns : List BalTxn
deriving Repr, DecidableEq

/-- Output row of the balance report (services.py lines 260-265). -/
structure BalRow where
  code : Nat
  name : String
  opening_balance : ℚ
  transaction_amount : ℚ
  closing_balance : ℚ
deriving Repr, DecidableEq

/-- `SUM(Value1)` over a set of rows, `NULL`/empty coalesced to 0. -/
def sumV (l : List BalTxn) : ℚ :=
  (l.map (fun t => t.value1)).sum

/-- The period filter of the balance report (services.py lines 246-252):
`Date >= start_date` and `Date <= end_date`, each bound only when given. -/
def balInWindow (startd endd : Option Int) (t : BalTxn) : Bool :=
  (match startd with | some d => decide (d ≤ t.date) | none => true) &&
  (match endd with | some d => decide (t.date ≤ d) | none => true)

/-- Per-account computation of `get_closing_balance_live` (services.py
lines 193-265). Note: the opening balance is rounded only on the
`start_date` branch (line 214 vs 216), the closing balance is rounded on
every branch (lines 227, 236), and the period amount is never rounded
(line 255). Accounts whose opening, period and closing are all zero are
dropped (lines 258-259). -/
def balanceItemRow (startd endd : Option Int) (b : BalInput) : Option BalRow :=
  let opening : ℚ :=
    match startd with
    | some d => round2 (b.baseOpening + sumV (b.txns.filter (fun t => decide (t.date < d))))
    | none => b.baseOpening
  let closing : ℚ :=
    match endd with
    | some d => round2 (b.baseOpening + sumV (b.txns.filter (fun t => decide (t.date ≤ d))))
    | none => round2 (b.baseOpening + sumV b.txns)
  let period : ℚ := sumV (b.txns.filter (balInWindow startd endd))
  if 0 < |opening| + |period| + |closing| then
    some ⟨b.code, b.name, opening, period, closing⟩
  else none

/-- `get_closing_balance_live` (services.py lines 166-267). -/
def get_closing_balance_live (startd endd : Option Int) (items : List BalInput) :
    List BalRow :=
  items.filterMap (balanceItemRow startd endd)

/-- Division instrumented to fault on a zero divisor: `none` marks a
division-by-zero fault. -/
def checkedDiv (v q : ℚ) : Option ℚ :=
  if q = 0 then none else some (v / q)

/-- The average-rate expression with its division instrumented: the guard
`if qty else` of the source decides whether the division is attempted. -/
def avgRateC (v q : ℚ) : Option ℚ :=
  if q = 0 then some 0 else checkedDiv v q

/-- `stepQVR` with instrumented division. -/
def stepQVRC (s : St) (t : Txn) : Option St :=
  if 0 < t.value1 then
    let q := s.qty + t.value1
    let v := s.val + t.value3
    (avgRateC v q).map (fun r => ⟨q, v, r⟩)
  else if t.value1 < 0 then
    let out := |t.value1|
    let v := s.val - out * s.rate
    let q := s.qty - out
    (avgRateC v q).map (fun r => ⟨q, v, r⟩)
  else some s

/-- `prePass` with instrumented division. -/
def prePassC (d : Int) : St → List Txn → Option St
  | s, [] => some s
  | s, t :: ts =>
    if d ≤ t.date then some s
    else (stepQVRC s t).bind (fun s' => prePassC d s' ts)

/-- `reportStep` with instrumented division. -/
def reportStepC (s : RepSt) (t : Txn) : Option RepSt :=
  if 0 < t.value1 then
    let q := s.st.qty + t.value1
    let v := s.st.val + t.value3
    (avgRateC v q).map (fun r => ⟨⟨q, v, r⟩, s.pqty + t.value1, s.pval + t.value3⟩)
  else if t.value1 < 0 then
    let out := |t.value1|
    let v := s.st.val - out * s.st.rate
    let q := s.st.qty - out
    (avgRateC v q).map (fun r => ⟨⟨q, v, r⟩, s.pqty + t.value1, s.pval - out * r⟩)
  else some s

/-- `reportPass` with instrumented division. -/
def reportPassC (startd endd : Option Int) : RepSt → List Txn → Option RepSt
  | s, [] => some s
  | s, t :: ts =>
    if inWindow startd endd t then
      (reportStepC s t).bind (fun s' => reportPassC startd endd s' ts)
    else reportPassC startd endd s ts

/-- `ledgerStep` with instrumented division (the sale branch performs no
division at all in the source). -/
def ledgerStepC (s : St) (t : Txn) : Option St :=
  if 0 < t.value1 then
    let q := s.qty + t.value1
    let v := s.val + t.value3
    (avgRateC v q).map (fun r => ⟨q, v, r⟩)
  else
    let out := |t.value1|
    some ⟨s.qty - out, s.val - out * s.rate, s.rate⟩

/-- `ledgerState` with instrumented division. -/
def ledgerStateC : St → List Txn → Option St
  | s, [] => some s
  | s, t :: ts => (ledgerStepC s t).bind (fun s' => ledgerStateC s' ts)

/-! ## Helper lemmas -/

theorem avgRateC_eq (v q : ℚ) : avgRateC v q = some (avgRate v q) := by
  unfold avgRateC avgRate checkedDiv
  split
  · rfl
  · simp [*]

theorem stepQVRC_eq (s : St) (t : Txn) : stepQVRC s t = some (stepQVR s t) := by
  unfold stepQVRC stepQVR
  by_cases h1 : 0 < t.value1
  · simp [h1, avgRateC_eq]
  · by_cases h2 : t.value1 < 0 <;> simp [h1, h2, avgRateC_eq]

theorem prePassC_eq (d : Int) (s : St) (l : List Txn) :
    prePassC d s l = some (prePass d s l) := by
  induction l generalizing s with
  | nil => rfl
  | cons t ts ih =>
    unfold prePassC prePass
    by_cases h : d ≤ t.date
    · simp [h]
    · simp [h, stepQVRC_eq, ih]

theorem reportStepC_eq (s : RepSt) (t : Txn) : reportStepC s t = some (reportStep s t) := by
  unfold reportStepC reportStep
  by_cases h1 : 0 < t.value1
  · simp [h1, avgRateC_eq]
  · by_cases h2 : t.value1 < 0 <;> simp [h1, h2, avgRateC_eq]

theorem reportPassC_eq (startd endd : Option Int) (s : RepSt) (l : List Txn) :
    reportPassC startd endd s l = some (reportPass startd endd s l) := by
  induction l generalizing s with
  | nil => rfl
  | cons t ts ih =>
    unfold reportPassC reportPass
    by_cases h : inWindow startd endd t
    · simp [h, reportStepC_eq, ih]
    · simp [h, ih]

theorem ledgerStepC_eq (s : St) (t : Txn) : ledgerStepC s t = some (ledgerStep s t) := by
  unfold ledgerStepC ledgerStep
  by_cases h1 : 0 < t.value1 <;> simp [h1, avgRateC_eq]

theorem ledgerStateC_eq (s : St) (l : List Txn) :
    ledgerStateC s l = some (ledgerState s l) := by
  induction l generalizing s with
  | nil => rfl
  | cons t ts ih => simp [ledgerStateC, ledgerState, List.foldl_cons, ledgerStepC_eq, ih]

/-! ## Claim theorems -/

/-- C10: every average-rate computation in the replay — the pre-start pass,
the in-window report pass, and the ledger path — is the guarded branch
returning 0 when the quantity is 0 and `value / quantity` otherwise, so the
replay never divides by zero: the division-instrumented replays succeed on
every input and agree with the uninstrumented ones. -/
theorem c10_guarded_average_rate :
    (∀ v q : ℚ, avgRateC v q = some (avgRate v q)) ∧
    (∀ (d : Int) (s : St) (l : List Txn), prePassC d s l = some (prePass d s l)) ∧
    (∀ (startd endd : Option Int) (s : RepSt) (l : List Txn),
      reportPassC startd endd s l = some (reportPass startd endd s l)) ∧
    (∀ (s : St) (l : List Txn), ledgerStateC s l = some (ledgerState s l)) :=
  ⟨avgRateC_eq, prePassC_eq, reportPassC_eq, ledgerStateC_eq⟩

/-- C9: a ledger request for an item code with no stock-item (`MasterType`
6) master record returns the empty ledger, for every window, folio row and
transaction list. -/
theorem c9_unknown_item_empty_ledger (catalog : List Master) (code : Nat)
    (startd endd : Option Int) (today : Int) (folio : Option (ℚ × ℚ))
    (txns : List Txn)
    (h : ∀ m ∈ catalog, ¬(m.code = code ∧ m.mtype = 6)) :
    get_stock_ledger_live catalog code startd endd today folio txns = [] := by
  have hf : catalog.find? (fun m => m.code == code && m.mtype == 6) = none := by
    rw [List.find?_eq_none]
    intro m hm
    have := h m hm
    simpa using this
  simp [get_stock_ledger_live, hf]

theorem c9_witness :
    (∀ m ∈ [(⟨2, 6, "B"⟩ : Master)], ¬(m.code = 1 ∧ m.mtype = 6)) ∧
    get_stock_ledger_live [⟨2, 6, "B"⟩] 1 none none 0 none [] = [] :=
  ⟨by simp, c9_unknown_item_empty_ledger [⟨2, 6, "B"⟩] 1 none none 0 none [] (by simp)⟩

/-- C4: applying a single outflow to a running snapshot whose rate equals
`value / quantity` leaves the rate unchanged whenever the post-outflow
quantity is nonzero: the post-outflow recomputation returns the pre-outflow
rate. -/
theorem c4_outflow_rate_stability (s : St) (t : Txn)
    (hq : s.qty ≠ 0) (hr : s.rate = s.val / s.qty)
    (ht : t.value1 < 0) (hq' : s.qty - |t.value1| ≠ 0) :
    (stepQVR s t).rate = s.rate := by
  have h' : ¬ 0 < t.value1 := by linarith
  simp only [stepQVR, if_neg h', if_pos ht, avgRate, if_neg hq']
  rw [hr]
  field_simp
  ring

theorem c4_witness :
    ((2 : ℚ) ≠ 0 ∧ (5 : ℚ) = 10 / 2 ∧ (-1 : ℚ) < 0 ∧ (2 : ℚ) - |(-1 : ℚ)| ≠ 0) ∧
    (stepQVR ⟨2, 10, 5⟩ ⟨0, -1, 3, 0⟩).rate = 5 :=
  ⟨⟨by norm_num, by norm_num, by norm_num, by norm_num⟩,
    c4_outflow_rate_stability ⟨2, 10, 5⟩ ⟨0, -1, 3, 0⟩
      (by norm_num) (by norm_num) (by norm_num) (by norm_num)⟩

/-- C2 counterexample: starting from opening `{qty 4, val 40}` (rate 10),
the in-window outflow of 4 drives the quantity to 0; the running value is
decremented by `4 * 10 = 40` (pre-update rate) but the period value is
decremented by `4 * 0 = 0`, using the post-update rate recomputed after the
outflow (services.py line 147 runs after line 145). The reported
`transaction_value` is 0, not `0 - 4 * 10 = -40` as the claim requires. -/
theorem c2_counterexample :
    get_closing_stock_live none none false [⟨7, "X", 4, 40, [⟨1, -4, 0, 0⟩]⟩] =
      [⟨7, "X", 4, 40, -4, 0, 0, 0⟩] ∧
    (0 : ℚ) ≠ 0 - |(-4 : ℚ)| * avgRate 40 4 := by
  constructor
  · norm_num [get_closing_stock_live, stockItemCalc, effectiveOpening, reportPass,
      reportStep, inWindow, avgRate, stockRowOf, round2, round_eq]
  · norm_num [avgRate]

/-- C2 amended: for an outflow processed by the stock-report replay, the
running value is decremented by `|q| * rate` at the pre-update rate, while
the period value is decremented by `|q| * rate` at the post-update
(recomputed) rate; the two decrements coincide exactly when the recomputed
rate equals the pre-update rate. -/
theorem c2_amended (s : RepSt) (t : Txn) (h : t.value1 < 0) :
    (reportStep s t).st.val = s.st.val - |t.value1| * s.st.rate ∧
    (reportStep s t).pval = s.pval - |t.value1| * (reportStep s t).st.rate ∧
    ((reportStep s t).st.rate = s.st.rate →
      s.pval - (reportStep s t).pval = s.st.val - (reportStep s t).st.val) := by
  have h' : ¬ 0 < t.value1 := by linarith
  simp only [reportStep, if_neg h', if_pos h]
  refine ⟨trivial, trivial, ?_⟩
  intro hr
  rw [hr]
  ring

theorem c2_amended_witness :
    (-1 : ℚ) < 0 ∧
    ((reportStep ⟨⟨2, 10, 5⟩, 3, 7⟩ ⟨0, -1, 9, 0⟩).st.val = 10 - |(-1 : ℚ)| * 5 ∧
     (reportStep ⟨⟨2, 10, 5⟩, 3, 7⟩ ⟨0, -1, 9, 0⟩).pval =
       7 - |(-1 : ℚ)| * (reportStep ⟨⟨2, 10, 5⟩, 3, 7⟩ ⟨0, -1, 9, 0⟩).st.rate ∧
     ((reportStep ⟨⟨2, 10, 5⟩, 3, 7⟩ ⟨0, -1, 9, 0⟩).st.rate = 5 →
       7 - (reportStep ⟨⟨2, 10, 5⟩, 3, 7⟩ ⟨0, -1, 9, 0⟩).pval =
       10 - (reportStep ⟨⟨2, 10, 5⟩, 3, 7⟩ ⟨0, -1, 9, 0⟩).st.val)) :=
  ⟨by norm_num, c2_amended ⟨⟨2, 10, 5⟩, 3, 7⟩ ⟨0, -1, 9, 0⟩ (by norm_num)⟩

/-- Rounding to two decimals is idempotent. -/
theorem round2_round2 (x : ℚ) : round2 (round2 x) = round2 x := by
  unfold round2
  have h : (100 : ℚ) * (((round (100 * x) : ℤ) : ℚ) / 100) = ((round (100 * x) : ℤ) : ℚ) := by
    field_simp
  rw [h, round_intCast]

/-- C1: the concrete scenario. From base `{qty 0, val 0}` with no window,
after `(d1, +10, 100)` the snapshot is `{10, 100}` with rate 10; the outflow
`(d2, -4, a)` (its amount `a` arbitrary) consumes `4 * 10 = 40`, leaving
`{6, 60}` with rate 10; after `(d3, +5, 60)` the closing snapshot is
`{11, 120}`, and the report row shows closing quantity 11 and value 120. -/
theorem c1_concrete_scenario (a : ℚ) :
    (reportPass none none ⟨⟨0, 0, avgRate 0 0⟩, 0, 0⟩ [⟨1, 10, 100, 0⟩]).st =
      ⟨10, 100, 10⟩ ∧
    (reportPass none none ⟨⟨0, 0, avgRate 0 0⟩, 0, 0⟩ [⟨1, 10, 100, 0⟩]).st.val -
      (reportPass none none ⟨⟨0, 0, avgRate 0 0⟩, 0, 0⟩
        [⟨1, 10, 100, 0⟩, ⟨2, -4, a, 0⟩]).st.val = 4 * 10 ∧
    (reportPass none none ⟨⟨0, 0, avgRate 0 0⟩, 0, 0⟩
      [⟨1, 10, 100, 0⟩, ⟨2, -4, a, 0⟩]).st = ⟨6, 60, 10⟩ ∧
    stockItemCalc none none 0 0 [⟨1, 10, 100, 0⟩, ⟨2, -4, a, 0⟩, ⟨3, 5, 60, 0⟩] =
      ⟨0, 0, 11, 120, 11, 120⟩ ∧
    get_closing_stock_live none none false
      [⟨1, "A", 0, 0, [⟨1, 10, 100, 0⟩, ⟨2, -4, a, 0⟩, ⟨3, 5, 60, 0⟩]⟩] =
      [⟨1, "A", 0, 0, 11, 120, 11, 120⟩] := by
  norm_num [reportPass, reportStep, inWindow, avgRate, stockItemCalc, effectiveOpening,
    get_closing_stock_live, stockRowOf, round2, round_eq]

/-- C7 counterexample: with `hide_zero_balance = true`, an item whose
closing quantity is `1/1000` — which rounds to exactly 0.00 — is still
included in the report, because the filter at services.py line 153 tests
the unrounded closing quantity against 0. -/
theorem c7_counterexample :
    get_closing_stock_live none none true [⟨1, "A", 1/1000, 0, []⟩] =
      [⟨1, "A", 0, 0, 0, 0, 0, 0⟩] ∧
    round2 ((1 : ℚ)/1000) = 0 := by
  constructor
  · norm_num [get_closing_stock_live, stockItemCalc, effectiveOpening, reportPass,
      inWindow, avgRate, stockRowOf, round2, round_eq]
  · norm_num [round2, round_eq]

/-- C7 amended: with `hide_zero_closing = true` the stock report retains
exactly the items whose unrounded closing quantity is nonzero: an item
whose closing quantity is exactly 0 is dropped even with nonzero period
activity, but one whose closing quantity merely rounds to 0.00 is kept. -/
theorem c7_amended (startd endd : Option Int) (items : List StockInput) :
    get_closing_stock_live startd endd true items =
      get_closing_stock_live startd endd false
        (items.filter (fun it =>
          decide ((stockItemCalc startd endd it.openingQty it.openingVal it.txns).closingQty ≠ 0))) := by
  induction items with
  | nil => rfl
  | cons it rest ih =>
    by_cases h : (stockItemCalc startd endd it.openingQty it.openingVal it.txns).closingQty = 0
    · simp [get_closing_stock_live, List.filter_cons, h, ih]
    · simp [get_closing_stock_live, List.filter_cons, h, ih]

/-- C8 counterexample: with no window bounds, the balance report returns
the base opening balance and the period amount unrounded: for a base
balance of `1/400 = 0.0025` and one transaction of `1/400`, the emitted row
carries `1/400` in both fields, and `1/400` is not a two-decimal value. -/
theorem c8_counterexample :
    get_closing_balance_live none none [⟨1, "A", 1/400, [⟨0, 1/400⟩]⟩] =
      [⟨1, "A", 1/400, 1/400, 1/100⟩] ∧
    round2 ((1 : ℚ)/400) ≠ (1 : ℚ)/400 := by
  constructor
  · norm_num [get_closing_balance_live, balanceItemRow, sumV, balInWindow,
      List.filterMap, round2, round_eq, abs_of_nonneg]
  · norm_num [round2, round_eq]

/-- C8 amended: every row of the balance report has its closing balance
rounded to 2 decimal places, and its opening balance rounded whenever a
start date is supplied; the opening balance with no start date and the
period amount are emitted unrounded. -/
theorem c8_amended (startd endd : Option Int) (items : List BalInput) (r : BalRow)
    (hr : r ∈ get_closing_balance_live startd endd items) :
    round2 r.closing_balance = r.closing_balance ∧
    (∀ d, startd = some d → round2 r.opening_balance = r.opening_balance) := by
  simp only [get_closing_balance_live, List.mem_filterMap] at hr
  obtain ⟨b, _, h⟩ := hr
  cases startd with
  | none =>
    cases endd with
    | none =>
      simp only [balanceItemRow] at h
      split at h
      · rw [Option.some.injEq] at h
        subst h
        exact ⟨round2_round2 _, fun d hd => Option.noConfusion hd⟩
      · exact Option.noConfusion h
    | some d2 =>
      simp only [balanceItemRow] at h
      split at h
      · rw [Option.some.injEq] at h
        subst h
        exact ⟨round2_round2 _, fun d hd => Option.noConfusion hd⟩
      · exact Option.noConfusion h
  | some d1 =>
    cases endd with
    | none =>
      simp only [balanceItemRow] at h
      split at h
      · rw [Option.some.injEq] at h
        subst h
        exact ⟨round2_round2 _, fun d hd => round2_round2 _⟩
      · exact Option.noConfusion h
    | some d2 =>
      simp only [balanceItemRow] at h
      split at h
      · rw [Option.some.injEq] at h
        subst h
        exact ⟨round2_round2 _, fun d hd => round2_round2 _⟩
      · exact Option.noConfusion h

theorem c8_amended_witness :
    (⟨1, "A", 5, 0, 5⟩ : BalRow) ∈ get_closing_balance_live (some 0) none [⟨1, "A", 5, []⟩] ∧
    (round2 (5 : ℚ) = 5 ∧ (∀ d, (some 0 : Option Int) = some d → round2 (5 : ℚ) = 5)) := by
  have hmem : (⟨1, "A", 5, 0, 5⟩ : BalRow) ∈
      get_closing_balance_live (some 0) none [⟨1, "A", 5, []⟩] := by
    norm_num [get_closing_balance_live, balanceItemRow, sumV, balInWindow,
      List.filterMap, round2, round_eq]
  exact ⟨hmem, c8_amended (some 0) none [⟨1, "A", 5, []⟩] ⟨1, "A", 5, 0, 5⟩ hmem⟩

theorem ledgerLoop_length (s : St) (idx : Nat) (l : List Txn) :
    (ledgerLoop s idx l).length = l.length := by
  induction l generalizing s idx with
  | nil => rfl
  | cons t ts ih => simp [ledgerLoop, ih]

/-- C6 counterexample: for an existing item whose folio opening is
`qty = -1, val = 0` — a nonzero opening snapshot — and no transactions, the
ledger has 0 rows, not `0 + 1`: the synthetic opening row is emitted only
when `opening_qty > 0 or opening_val > 0` (services.py line 360), not
whenever the opening is nonzero. -/
theorem c6_counterexample :
    get_stock_ledger_live [⟨1, 6, "A"⟩] 1 none none 0 (some (-1, 0)) [] = [] ∧
    ¬((-1 : ℚ) = 0 ∧ (0 : ℚ) = 0) := by
  constructor
  · norm_num [get_stock_ledger_live, List.find?, effectiveOpening, ledgerLoop]
  · norm_num

/-- C6 amended: for a ledger request whose item exists in the catalog, the
number of rows equals the number of in-window transactions plus 1 exactly
when the effective opening quantity or the effective opening value is
strictly positive (and plus 0 otherwise). -/
theorem c6_amended (catalog : List Master) (code : Nat) (startd endd : Option Int)
    (today : Int) (folio : Option (ℚ × ℚ)) (txns : List Txn)
    (h : (catalog.find? (fun m => m.code == code && m.mtype == 6)).isSome = true) :
    (get_stock_ledger_live catalog code startd endd today folio txns).length =
      (txns.filter (inWindow startd endd)).length +
      (if 0 < (effectiveOpening startd (folio.getD (0, 0)).1 (folio.getD (0, 0)).2 txns).1 ∨
          0 < (effectiveOpening startd (folio.getD (0, 0)).1 (folio.getD (0, 0)).2 txns).2
        then 1 else 0) := by
  obtain ⟨m, hm⟩ := Option.isSome_iff_exists.mp h
  unfold get_stock_ledger_live
  rw [hm]
  simp only [List.length_append, ledgerLoop_length]
  split <;> simp [Nat.add_comm]

theorem c6_amended_witness :
    (([(⟨1, 6, "A"⟩ : Master)].find? (fun m => m.code == 1 && m.mtype == 6)).isSome = true) ∧
    (get_stock_ledger_live [⟨1, 6, "A"⟩] 1 none none 0 (some (2, 3)) []).length =
      (([] : List Txn).filter (inWindow none none)).length +
      (if 0 < (effectiveOpening none ((some ((2 : ℚ), (3 : ℚ))).getD (0, 0)).1
            ((some ((2 : ℚ), (3 : ℚ))).getD (0, 0)).2 []).1 ∨
          0 < (effectiveOpening none ((some ((2 : ℚ), (3 : ℚ))).getD (0, 0)).1
            ((some ((2 : ℚ), (3 : ℚ))).getD (0, 0)).2 []).2
        then 1 else 0) :=
  ⟨by simp [List.find?], c6_amended [⟨1, 6, "A"⟩] 1 none none 0 (some (2, 3)) []
    (by simp [List.find?])⟩

theorem reportStep_st (s : RepSt) (t : Txn) : (reportStep s t).st = stepQVR s.st t := by
  unfold reportStep stepQVR
  by_cases h1 : 0 < t.value1
  · simp [h1]
  · by_cases h2 : t.value1 < 0 <;> simp [h1, h2]

theorem reportPass_eq_foldl (startd endd : Option Int) (s : RepSt) (l : List Txn) :
    reportPass startd endd s l = (l.filter (inWindow startd endd)).foldl reportStep s := by
  induction l generalizing s with
  | nil => rfl
  | cons t ts ih =>
    unfold reportPass
    by_cases h : inWindow startd endd t <;> simp [List.filter_cons, h, ih]

theorem foldl_reportStep_qty (l : List Txn) :
    ∀ (s1 : RepSt) (s2 : St), s1.st.qty = s2.qty →
      (l.foldl reportStep s1).st.qty = (l.foldl ledgerStep s2).qty := by
  induction l with
  | nil => exact fun s1 s2 h => h
  | cons t ts ih =>
    intro s1 s2 h
    apply ih
    unfold reportStep ledgerStep
    by_cases h1 : 0 < t.value1
    · simp [h1, h]
    · by_cases h2 : t.value1 < 0
      · simp [h1, h2, h]
      · have h0 : t.value1 = 0 := le_antisymm (not_lt.mp h1) (not_lt.mp h2)
        simp [h1, h2, h, h0]

theorem foldl_reportStep_st_of_nonneg (l : List Txn) (hpos : ∀ t ∈ l, 0 ≤ t.value1) :
    ∀ (s1 : RepSt), (l.foldl reportStep s1).st = l.foldl ledgerStep s1.st := by
  induction l with
  | nil => exact fun s1 => rfl
  | cons t ts ih =>
    intro s1
    have ht : (0 : ℚ) ≤ t.value1 := hpos t (List.mem_cons_self t ts)
    have hts : ∀ u ∈ ts, (0 : ℚ) ≤ u.value1 := fun u hu => hpos u (List.mem_cons_of_mem t hu)
    rw [List.foldl_cons, List.foldl_cons, ih hts]
    congr 1
    unfold reportStep ledgerStep
    by_cases h1 : 0 < t.value1
    · simp [h1]
    · have h0 : t.value1 = 0 := le_antisymm (not_lt.mp h1) ht
      have h2 : ¬ t.value1 < 0 := by rw [h0]; exact lt_irrefl 0
      simp [h1, h2, h0]

/-- C3 counterexample: for opening `{qty 0, val 5}` and two outflows, the
stock report and the ledger disagree on the closing value. The report path
recomputes the rate after each outflow (services.py line 145), so the first
outflow sets `rate = 5 / (-2)` and the second consumes at that rate,
closing at value `15/2`; the ledger path never recomputes the rate after an
outflow (lines 388-394), keeps `rate = 0`, and its last row closes at value
5. The claim that both paths report the same closing value is false. -/
theorem c3_counterexample :
    get_closing_stock_live none none false
        [⟨1, "A", 0, 5, [⟨1, -2, 0, 0⟩, ⟨2, -1, 0, 0⟩]⟩] =
      [⟨1, "A", 0, 5, -3, 15/2, -3, 15/2⟩] ∧
    get_stock_ledger_live [⟨1, 6, "A"⟩] 1 none none 0 (some (0, 5))
        [⟨1, -2, 0, 0⟩, ⟨2, -1, 0, 0⟩] =
      [⟨0, 1, 0, 0, 0, 0, 0, 5⟩, ⟨1, 1, 5, 0, 0, 2, -2, 5⟩, ⟨2, 2, 5, -2, 0, 1, -3, 5⟩] ∧
    (15 : ℚ)/2 ≠ 5 := by
  refine ⟨?_, ?_, by norm_num⟩
  · norm_num [get_closing_stock_live, stockItemCalc, effectiveOpening, reportPass,
      reportStep, inWindow, avgRate, stockRowOf, round2, round_eq]
  · norm_num [get_stock_ledger_live, List.find?, effectiveOpening, inWindow,
      openingRowDate, ledgerLoop, ledgerStep, avgRate, round2, round_eq]

/-- C3 amended: from a common effective opening snapshot, the in-window
update steps of the stock-report path and the ledger path always agree on
the closing quantity, but the ledger path omits the average-rate
recomputation after an outflow, so the closing values are guaranteed to
agree only when the window contains no outflow transaction (in general they
can differ, see the counterexample). -/
theorem c3_amended (startd endd : Option Int) (oq ov : ℚ) (txns : List Txn) :
    (reportPass startd endd ⟨⟨oq, ov, avgRate ov oq⟩, 0, 0⟩ txns).st.qty =
      (ledgerState ⟨oq, ov, avgRate ov oq⟩ (txns.filter (inWindow startd endd))).qty ∧
    ((∀ t ∈ txns, 0 ≤ t.value1) →
      (reportPass startd endd ⟨⟨oq, ov, avgRate ov oq⟩, 0, 0⟩ txns).st =
        ledgerState ⟨oq, ov, avgRate ov oq⟩ (txns.filter (inWindow startd endd))) := by
  rw [reportPass_eq_foldl]
  unfold ledgerState
  constructor
  · exact foldl_reportStep_qty _ _ _ rfl
  · intro h
    exact foldl_reportStep_st_of_nonneg _
      (fun t ht => h t (List.mem_of_mem_filter ht)) _

theorem c3_amended_witness :
    ((reportPass none none ⟨⟨1, 2, avgRate 2 1⟩, 0, 0⟩ [⟨1, 3, 9, 0⟩]).st.qty =
      (ledgerState ⟨1, 2, avgRate 2 1⟩ ([⟨1, 3, 9, 0⟩].filter (inWindow none none))).qty) ∧
    ((reportPass none none ⟨⟨1, 2, avgRate 2 1⟩, 0, 0⟩ [⟨1, 3, 9, 0⟩]).st =
      ledgerState ⟨1, 2, avgRate 2 1⟩ ([⟨1, 3, 9, 0⟩].filter (inWindow none none))) :=
  ⟨(c3_amended none none 1 2 [⟨1, 3, 9, 0⟩]).1,
    (c3_amended none none 1 2 [⟨1, 3, 9, 0⟩]).2 (by
      rintro t ht
      simp only [List.mem_singleton] at ht
      subst ht
      norm_num)⟩

theorem prePass_eq_takeWhile (d : Int) (s : St) (l : List Txn) :
    prePass d s l = (l.takeWhile (fun t => decide (t.date < d))).foldl stepQVR s := by
  induction l generalizing s with
  | nil => rfl
  | cons t ts ih =>
    unfold prePass
    by_cases h : d ≤ t.date
    · have h' : ¬ (t.date < d) := not_lt.mpr h
      simp [List.takeWhile_cons, h, h']
    · have h' : t.date < d := not_le.mp h
      simp [List.takeWhile_cons, h, h', ih]

/-- The running-state invariant maintained by every pass: the stored rate
is the guarded quotient of the stored value and quantity. -/
def StConsistent (s : St) : Prop := s.rate = avgRate s.val s.qty

theorem stepQVR_consistent (s : St) (t : Txn) (h : StConsistent s) :
    StConsistent (stepQVR s t) := by
  unfold stepQVR StConsistent
  by_cases h1 : 0 < t.value1
  · simp [h1]
  · by_cases h2 : t.value1 < 0
    · simp [h1, h2]
    · simpa [h1, h2] using h

theorem foldl_stepQVR_consistent (l : List Txn) (s : St) (h : StConsistent s) :
    StConsistent (l.foldl stepQVR s) := by
  induction l generalizing s with
  | nil => exact h
  | cons t ts ih => exact ih _ (stepQVR_consistent s t h)

theorem foldl_reportStep_st (l : List Txn) (s : RepSt) :
    (l.foldl reportStep s).st = l.foldl stepQVR s.st := by
  induction l generalizing s with
  | nil => rfl
  | cons t ts ih => rw [List.foldl_cons, List.foldl_cons, ih, reportStep_st]

theorem inWindow_none_none (t : Txn) : inWindow none none t = true := rfl

theorem inWindow_some_none (d : Int) (t : Txn) :
    inWindow (some d) none t = !decide (t.date < d) := by
  unfold inWindow
  rw [Bool.and_true, ← decide_not]
  exact decide_eq_decide.mpr not_lt.symm

theorem sorted_takeWhile_eq_filter (d : Int) (l : List Txn)
    (hs : l.Pairwise (fun a b => a.date ≤ b.date)) :
    l.takeWhile (fun t => decide (t.date < d)) = l.filter (fun t => decide (t.date < d)) ∧
    l.dropWhile (fun t => decide (t.date < d)) = l.filter (fun t => !decide (t.date < d)) := by
  induction l with
  | nil => exact ⟨rfl, rfl⟩
  | cons t ts ih =>
    obtain ⟨h1, h2⟩ := List.pairwise_cons.mp hs
    obtain ⟨iht, ihd⟩ := ih h2
    by_cases h : t.date < d
    · simp [List.takeWhile_cons, List.dropWhile_cons, List.filter_cons, h, iht, ihd]
    · have hall : ∀ u ∈ ts, ¬ (u.date < d) := by
        intro u hu
        have := h1 u hu
        omega
      constructor
      · simp only [List.takeWhile_cons, List.filter_cons, h, decide_False,
          Bool.false_eq_true, if_false]
        exact (List.filter_eq_nil_iff.mpr (fun u hu => by simp [hall u hu])).symm
      · simp only [List.dropWhile_cons, List.filter_cons, h, decide_False,
          Bool.false_eq_true, if_false, Bool.not_false, if_true]
        exact congrArg (t :: ·) (List.filter_eq_self.mpr (fun u hu => by simp [hall u hu])).symm

theorem stockClosing_window_split (oq ov : ℚ) (txns : List Txn) (d : Int)
    (hs : txns.Pairwise (fun a b => a.date ≤ b.date)) :
    (reportPass (some d) none
        ⟨⟨(prePass d ⟨oq, ov, avgRate ov oq⟩ txns).qty,
          (prePass d ⟨oq, ov, avgRate ov oq⟩ txns).val,
          avgRate (prePass d ⟨oq, ov, avgRate ov oq⟩ txns).val
            (prePass d ⟨oq, ov, avgRate ov oq⟩ txns).qty⟩, 0, 0⟩ txns).st =
      (reportPass none none ⟨⟨oq, ov, avgRate ov oq⟩, 0, 0⟩ txns).st := by
  have hcons : StConsistent (prePass d ⟨oq, ov, avgRate ov oq⟩ txns) := by
    rw [prePass_eq_takeWhile]
    exact foldl_stepQVR_consistent _ _ rfl
  have hre : (⟨(prePass d ⟨oq, ov, avgRate ov oq⟩ txns).qty,
      (prePass d ⟨oq, ov, avgRate ov oq⟩ txns).val,
      avgRate (prePass d ⟨oq, ov, avgRate ov oq⟩ txns).val
        (prePass d ⟨oq, ov, avgRate ov oq⟩ txns).qty⟩ : St) =
      prePass d ⟨oq, ov, avgRate ov oq⟩ txns := by
    rw [St.mk.injEq]
    exact ⟨rfl, rfl, hcons.symm⟩
  rw [reportPass_eq_foldl, reportPass_eq_foldl, foldl_reportStep_st, foldl_reportStep_st]
  show List.foldl stepQVR (⟨(prePass d ⟨oq, ov, avgRate ov oq⟩ txns).qty,
      (prePass d ⟨oq, ov, avgRate ov oq⟩ txns).val,
      avgRate (prePass d ⟨oq, ov, avgRate ov oq⟩ txns).val
        (prePass d ⟨oq, ov, avgRate ov oq⟩ txns).qty⟩ : St) _ =
    List.foldl stepQVR (⟨oq, ov, avgRate ov oq⟩ : St) _
  rw [hre, prePass_eq_takeWhile]
  have hfc : txns.filter (inWindow (some d) none) =
      txns.filter (fun t => !decide (t.date < d)) :=
    List.filter_congr (fun t _ => inWindow_some_none d t)
  rw [hfc, ← (sorted_takeWhile_eq_filter d txns hs).2, ← List.foldl_append,
    List.takeWhile_append_dropWhile,
    List.filter_eq_self.mpr (fun t _ => inWindow_none_none t)]

/-- C5: for every base snapshot and every transaction list sorted ascending
by date, the closing snapshot of the unwindowed replay equals the closing
snapshot of the replay windowed at `(d, None)` for any boundary `d`:
splitting into a pre-start pass and an in-window pass loses nothing. -/
theorem c5_window_decomposition (oq ov : ℚ) (txns : List Txn) (d : Int)
    (hs : txns.Pairwise (fun a b => a.date ≤ b.date)) :
    (stockItemCalc (some d) none oq ov txns).closingQty =
      (stockItemCalc none none oq ov txns).closingQty ∧
    (stockItemCalc (some d) none oq ov txns).closingVal =
      (stockItemCalc none none oq ov txns).closingVal := by
  have h := stockClosing_window_split oq ov txns d hs
  exact ⟨congrArg St.qty h, congrArg St.val h⟩

theorem c5_witness :
    ([⟨1, 10, 100, 0⟩, ⟨2, -4, 0, 0⟩] : List Txn).Pairwise (fun a b => a.date ≤ b.date) ∧
    ((stockItemCalc (some 2) none 0 0 [⟨1, 10, 100, 0⟩, ⟨2, -4, 0, 0⟩]).closingQty =
      (stockItemCalc none none 0 0 [⟨1, 10, 100, 0⟩, ⟨2, -4, 0, 0⟩]).closingQty ∧
     (stockItemCalc (some 2) none 0 0 [⟨1, 10, 100, 0⟩, ⟨2, -4, 0, 0⟩]).closingVal =
      (stockItemCalc none none 0 0 [⟨1, 10, 100, 0⟩, ⟨2, -4, 0, 0⟩]).closingVal) :=
  ⟨by norm_num [List.pairwise_cons],
    c5_window_decomposition 0 0 [⟨1, 10, 100, 0⟩, ⟨2, -4, 0, 0⟩] 2
      (by norm_num [List.pairwise_cons])⟩

